import Mathlib

/-!
A shallow embedding of the agu2019 notebooks (show_image.ipynb and the
companion floc notebook): numpy-style n-dimensional arrays, the Butterworth
band-pass mask, the frequency-domain frame filter, the floc-proxy
computation, the metadata-table row filtering, the delayed frame list
construction, and the per-frame timestamp computation.

Floating-point values of the Python code are modelled as real numbers;
complex FFT values as complex numbers.  Operations that can raise a Python
exception (slicing a too-low-dimensional array, numpy broadcasting, library
fetch calls) are modelled with `Except PyError`.
-/

/-- A numpy-style n-dimensional array: a shape together with a total
indexing function.  An index is a list of coordinates, one per axis;
out-of-range or wrong-rank index lists read arbitrary junk values, which
no theorem below depends on. -/
structure NDArray (α : Type) where
  shape : List Nat
  data : List Nat → α

/-- Python-level exceptions surfaced by the numpy / pandas / pycamhd layers. -/
inductive PyError where
  | broadcastError (s1 s2 : List Nat)
  | indexError (s : List Nat)
  | valueError (msg : String)
  | libraryError (msg : String)
deriving DecidableEq

/-- numpy `ndarray.ndim`: the number of axes. -/
def NDArray.ndim {α : Type} (a : NDArray α) : Nat := a.shape.length

/-- Elementwise map over an array (used to model the implicit numpy dtype
promotions, e.g. real to complex). -/
def NDArray.map {α β : Type} (a : NDArray α) (f : α → β) : NDArray β :=
  ⟨a.shape, fun idx => f (a.data idx)⟩

/-- Re-expand an index of a squeezed array to an index of the original
array, inserting coordinate 0 at every unit axis. -/
def unsqueeze_index : List Nat → List Nat → List Nat
  | [], _ => []
  | d :: ds, idx =>
    if d = 1 then 0 :: unsqueeze_index ds idx
    else idx.headD 0 :: unsqueeze_index ds idx.tail

/-- `np.squeeze`: remove all axes of extent 1. -/
def np_squeeze {α : Type} (a : NDArray α) : NDArray α :=
  ⟨a.shape.filter (fun d => d != 1), fun idx => a.data (unsqueeze_index a.shape idx)⟩

/-- The slice `a[0:1024, 0:1024]`: clamp the first two axes to at most 1024
(numpy slices clamp to the axis extent); on an array with fewer than two
axes numpy raises an IndexError (too many indices). -/
def slice_1024 {α : Type} (a : NDArray α) : Except PyError (NDArray α) :=
  match a.shape with
  | d0 :: d1 :: rest => .ok ⟨min 1024 d0 :: min 1024 d1 :: rest, a.data⟩
  | s => .error (.indexError s)

/-- The expression `frame[0, 0:1024, 0:1024]` from the squeeze branch of
frame_filter: integer-index the first axis at 0 and slice the next two.
The caller guards this with `frame.ndim == 3`, so only the first pattern
is ever reached. -/
def slice_first0_1024 {α : Type} (a : NDArray α) : NDArray α :=
  match a.shape with
  | _ :: d1 :: d2 :: rest => ⟨min 1024 d1 :: min 1024 d2 :: rest, fun idx => a.data (0 :: idx)⟩
  | _ => a

/-- numpy broadcasting compatibility of two shapes given with their axes
reversed (trailing axis first): axes pair up from the end and must be
equal or have extent 1. -/
def bcast_compat : List Nat → List Nat → Bool
  | [], _ => true
  | _, [] => true
  | a :: as, b :: bs => (a == b || a == 1 || b == 1) && bcast_compat as bs

/-- The broadcast result shape, with both inputs and the output reversed
(trailing axis first): the pointwise maximum, padded with the longer shape. -/
def bcast_shape : List Nat → List Nat → List Nat
  | [], bs => bs
  | as, [] => as
  | a :: as, b :: bs => max a b :: bcast_shape as bs

/-- Map an index of the broadcast result (rank `rank`) to an index of an
operand with shape `s`: drop the leading extra axes and send broadcast
(unit-extent) axes to coordinate 0. -/
def bcast_index (s : List Nat) (rank : Nat) (idx : List Nat) : List Nat :=
  List.zipWith (fun d i => if d = 1 then 0 else i) s (idx.drop (rank - s.length))

/-- numpy elementwise multiplication with broadcasting; raises a ValueError
when the shapes cannot be broadcast together. -/
def np_mul (a b : NDArray ℂ) : Except PyError (NDArray ℂ) :=
  if bcast_compat a.shape.reverse b.shape.reverse then
    let sh := (bcast_shape a.shape.reverse b.shape.reverse).reverse
    .ok ⟨sh, fun idx =>
      a.data (bcast_index a.shape sh.length idx) * b.data (bcast_index b.shape sh.length idx)⟩
  else
    .error (.broadcastError a.shape b.shape)

/-- `np.fft.fft2`: the two-dimensional discrete Fourier transform over the
last two axes.  Requires at least two axes. -/
noncomputable def np_fft2 (a : NDArray ℂ) : Except PyError (NDArray ℂ) :=
  if a.shape.length < 2 then .error (.valueError "fft2 requires at least a 2-d input")
  else .ok ⟨a.shape, fun idx =>
    let r := a.shape.length
    let M := a.shape.getD (r - 2) 1
    let N := a.shape.getD (r - 1) 1
    let k := idx.getD (r - 2) 0
    let l := idx.getD (r - 1) 0
    ∑ u ∈ Finset.range M, ∑ v ∈ Finset.range N,
      a.data (idx.take (r - 2) ++ [u, v]) *
        Complex.exp (-2 * Real.pi * Complex.I *
          ((k : ℂ) * (u : ℂ) / (M : ℂ) + (l : ℂ) * (v : ℂ) / (N : ℂ)))⟩

/-- `np.fft.ifft2`: the two-dimensional inverse discrete Fourier transform
over the last two axes, normalized by the product of the two extents. -/
noncomputable def np_ifft2 (a : NDArray ℂ) : Except PyError (NDArray ℂ) :=
  if a.shape.length < 2 then .error (.valueError "ifft2 requires at least a 2-d input")
  else .ok ⟨a.shape, fun idx =>
    let r := a.shape.length
    let M := a.shape.getD (r - 2) 1
    let N := a.shape.getD (r - 1) 1
    let m := idx.getD (r - 2) 0
    let n := idx.getD (r - 1) 0
    (1 / ((M : ℂ) * (N : ℂ))) *
      ∑ u ∈ Finset.range M, ∑ v ∈ Finset.range N,
        a.data (idx.take (r - 2) ++ [u, v]) *
          Complex.exp (2 * Real.pi * Complex.I *
            ((m : ℂ) * (u : ℂ) / (M : ℂ) + (n : ℂ) * (v : ℂ) / (N : ℂ)))⟩

/-- `np.fft.fftshift` with default axes: roll every axis by half its extent,
moving the zero-frequency component to the center.  On axis extent `d` the
output at coordinate `i` reads input coordinate `(i + (d - d / 2)) % d`. -/
def np_fftshift (a : NDArray ℂ) : NDArray ℂ :=
  ⟨a.shape, fun idx => a.data (List.zipWith (fun d i => (i + (d - d / 2)) % d) a.shape idx)⟩

/-- `np.fft.ifftshift` with default axes: the inverse of `np_fftshift`. -/
def np_ifftshift (a : NDArray ℂ) : NDArray ℂ :=
  ⟨a.shape, fun idx => a.data (List.zipWith (fun d i => (i + d / 2) % d) a.shape idx)⟩

/-- Entry `k` of `np.arange(-1024/2+0.5, 1024/2+1-0.5)`: the half-sample
offset coordinate grid -511.5, -510.5, ..., 511.5 (1024 samples). -/
noncomputable def arange_x (k : Nat) : ℝ := -1024 / 2 + 0.5 + (k : ℝ)

/-- The Butterworth band-pass mask of show_image.ipynb.  `np.meshgrid(x, x)`
gives `xx[i][j] = x[j]` and `yy[i][j] = x[i]`; `d` is the radial distance
and the mask multiplies a high-pass factor (low cut `d1`) with a low-pass
factor (high cut `d2`). -/
noncomputable def butterworth (d1 d2 : ℝ) (n : ℕ) : NDArray ℝ :=
  ⟨[1024, 1024], fun idx =>
    let i := idx.getD 0 0
    let j := idx.getD 1 0
    let xx := arange_x j
    let yy := arange_x i
    let d := Real.sqrt (xx ^ 2 + yy ^ 2)
    (1 - 1 / (1 + (d / d1) ^ (2 * n))) * (1 / (1 + (d / d2) ^ (2 * n)))⟩

/-- `frame_filter` from show_image.ipynb: crop (with a squeeze for frames
carrying a leading unit axis), 2-d FFT, fftshift, multiply by the
Butterworth mask, ifftshift, inverse 2-d FFT. -/
noncomputable def frame_filter (frame : NDArray ℝ) (d1 d2 : ℝ) (n : ℕ) :
    Except PyError (NDArray ℂ) := do
  let I ← if frame.ndim == 3 && frame.shape.headD 0 == 1 then
      Except.ok (np_squeeze (slice_first0_1024 frame))
    else
      slice_1024 frame
  let bff := butterworth d1 d2 n
  let I_fft ← np_fft2 (I.map Complex.ofReal)
  let I_fft_shift := np_fftshift I_fft
  let I_fft_shift_filt ← np_mul I_fft_shift (bff.map Complex.ofReal)
  let I_fft_filt := np_ifftshift I_fft_shift_filt
  let I_filt ← np_ifft2 I_fft_filt
  pure I_filt

/-- All of the `heads.length * tails.length` index lists `h :: t` with
`h` from `heads` and `t` from `tails`, in row-major order. -/
def prod_cons (heads : List Nat) (tails : List (List Nat)) : List (List Nat) :=
  match heads with
  | [] => []
  | h :: hs => tails.map (fun t => h :: t) ++ prod_cons hs tails

/-- Every index list of an array of the given shape, in row-major order. -/
def all_indices : List Nat → List (List Nat)
  | [] => [[]]
  | d :: ds => prod_cons (List.range d) (all_indices ds)

open Classical in
/-- `(np.absolute(a) > 4000).sum()`: the number of entries of the array
whose absolute value strictly exceeds 4000. -/
noncomputable def floc_count (a : NDArray ℂ) : ℕ :=
  ((all_indices a.shape).filter (fun idx => decide (4000 < Complex.abs (a.data idx)))).length

/-- `calc_floc_proxy` from show_image.ipynb: run the frame filter and wrap
the threshold count in a one-element integer array (`np.array([...])`). -/
noncomputable def calc_floc_proxy (frame : NDArray ℝ) (d1 d2 : ℝ) (n : ℕ) :
    Except PyError (NDArray ℤ) := do
  let I_filt ← frame_filter frame d1 d2 n
  pure ⟨[1], fun _ => (floc_count I_filt : ℤ)⟩

/-- One row of the dbcamhd.json metadata table. -/
structure CamhdRow where
  blob_url : String
  deployment : Int
  frame_count : Int
  timestamp : ℚ
deriving DecidableEq

/-- Insert a string into a sorted list, keeping ascending order. -/
def insert_sorted (a : String) : List String → List String
  | [] => [a]
  | b :: l => if a ≤ b then a :: b :: l else b :: insert_sorted a l

/-- Ascending sort of a list of strings, modelling Python `list.sort()`. -/
def py_sort : List String → List String
  | [] => []
  | a :: l => insert_sorted a (py_sort l)

/-- The `blob_urls` cell: select the blob_url column of the rows with
deployment 2 and frame_count strictly between 5000 and 30000, then sort. -/
def blob_urls (dbcamhd : List CamhdRow) : List String :=
  py_sort ((dbcamhd.filter (fun r =>
    r.deployment == 2 && decide (5000 < r.frame_count) && decide (r.frame_count < 30000))).map
      (fun r => r.blob_url))

/-- A node of the dask task graph built by the notebook. -/
inductive Delayed where
  | moov_atom (blob_url : String)
  | frame (blob_url : String) (frame_number : Nat) (pix_fmt : String) (moov : Delayed)
deriving DecidableEq

/-- `dsa.from_delayed(task, shape, dtype)`: a one-chunk dask array holding a
deferred task together with its declared shape and dtype. -/
structure DelayedArray where
  task : Delayed
  shape : List Nat
  dtype : String
deriving DecidableEq

/-- The `delayed_frame_list` loop of show_image.ipynb: for every blob url
one deferred moov-atom fetch, and for every frame number of that url one
deferred rgb24 frame of declared shape (1080, 1920, 3) and dtype uint8. -/
def delayed_frame_list : List String → List Nat → List DelayedArray
  | [], _ => []
  | blob_url :: rest, frame_numbers =>
    (frame_numbers.map (fun frame_number =>
      { task := Delayed.frame blob_url frame_number "rgb24" (Delayed.moov_atom blob_url),
        shape := [1080, 1920, 3], dtype := "uint8" })) ++
      delayed_frame_list rest frame_numbers

/-- `dsa.stack(delayed_frame_list)`: the stacked dask array, whose chunks
are the listed one-frame arrays in order. -/
structure StackedArray where
  chunks : List DelayedArray
deriving DecidableEq

/-- The `delayed_frame_array` built by the notebook. -/
def delayed_frame_array (urls : List String) (frame_numbers : List Nat) : StackedArray :=
  ⟨delayed_frame_list urls frame_numbers⟩

/-- `dbcamhd['timestamp'][dbcamhd.blob_url == blob_url].iloc[0]`: the
timestamp of the first table row with the given blob url; `iloc[0]`
raises an IndexError when no row matches. -/
def lookup_timestamp (dbcamhd : List CamhdRow) (url : String) : Except PyError ℚ :=
  match dbcamhd.filter (fun r => r.blob_url == url) with
  | [] => .error (.indexError [0])
  | r :: _ => .ok r.timestamp

/-- The inner loop of the timestamp cell: the mutable `timestamp` variable
accumulates `frame_number / 29.97` across the frame numbers, and every
intermediate value is appended. -/
def ts_loop (timestamp : ℚ) : List Nat → List ℚ
  | [] => []
  | frame_number :: rest =>
    let t := timestamp + (frame_number : ℚ) / (2997 / 100)
    t :: ts_loop t rest

/-- The outer loop of the timestamp cell over a given url list. -/
def frame_timestamp_go (dbcamhd : List CamhdRow) (frame_numbers : List Nat) :
    List String → Except PyError (List ℚ)
  | [] => .ok []
  | url :: rest => do
    let t0 ← lookup_timestamp dbcamhd url
    let more ← frame_timestamp_go dbcamhd frame_numbers rest
    pure (ts_loop t0 frame_numbers ++ more)

/-- The `frame_timestamp` cell: for every selected blob url in order, look
up its table timestamp and append the per-frame epoch values computed by
the inner loop (their conversion through `datetime.fromtimestamp` and
`dates.date2num` is order- and value-preserving and is left external). -/
def frame_timestamp (dbcamhd : List CamhdRow) (frame_numbers : List Nat) :
    Except PyError (List ℚ) :=
  frame_timestamp_go dbcamhd frame_numbers (blob_urls dbcamhd)

/-- An opaque moov atom handle returned by `pycamhd.get_moov_atom`. -/
structure MoovAtom where
  blob_url : String
deriving DecidableEq

/-- The computation dask runs for one chunk of the floc_proxy array: fetch
the moov atom, fetch the frame, and apply `calc_floc_proxy`.  The library
calls are parameters; the notebook wraps them in no try/except. -/
noncomputable def compute_chunk
    (get_moov_atom : String → Except PyError MoovAtom)
    (get_frame : String → Nat → String → MoovAtom → Except PyError (NDArray ℝ))
    (blob_url : String) (frame_number : Nat) (d1 d2 : ℝ) (n : ℕ) :
    Except PyError (NDArray ℤ) := do
  let moov ← get_moov_atom blob_url
  let frame ← get_frame blob_url frame_number "rgb24" moov
  calc_floc_proxy frame d1 d2 n

/-- Specification-side crop: the 1024x1024 subimage of a frame (the spec
phrase "crop the frame to the 1024x1024 subimage"). -/
def crop_1024 (frame : NDArray ℝ) : NDArray ℝ := ⟨[1024, 1024], frame.data⟩

/-- Specification-side radial distance of pixel (i, j) from the grid
center, on the half-sample-offset grid x = -511.5 .. 511.5. -/
noncomputable def spec_dist (i j : ℕ) : ℝ :=
  Real.sqrt (((i : ℝ) - 511.5) ^ 2 + ((j : ℝ) - 511.5) ^ 2)

/-- The timestamp the metadata table holds for a url: the timestamp of the
first matching row (total version of `lookup_timestamp`, defaulting to 0). -/
def table_timestamp (dbcamhd : List CamhdRow) (url : String) : ℚ :=
  match dbcamhd.filter (fun r => r.blob_url == url) with
  | [] => 0
  | r :: _ => r.timestamp

/-- On a 2-d frame with both extents at least 1024, frame_filter reduces to
the frequency-domain composition of the claimed steps. -/
theorem frame_filter_2d_eq (dat : List Nat → ℝ) (d1 d2 : ℝ) (n : ℕ) (a b : ℕ)
    (ha : 1024 ≤ a) (hb : 1024 ≤ b) :
    frame_filter ⟨[a, b], dat⟩ d1 d2 n =
      Except.bind (np_fft2 ((crop_1024 ⟨[a, b], dat⟩).map Complex.ofReal)) (fun I_fft =>
        Except.bind (np_mul (np_fftshift I_fft) ((butterworth d1 d2 n).map Complex.ofReal))
          (fun filt => np_ifft2 (np_ifftshift filt))) := by
  unfold frame_filter
  simp only [NDArray.ndim, List.length_cons, List.length_nil, crop_1024]
  norm_num
  simp only [slice_1024]
  rw [min_eq_left ha, min_eq_left hb]
  simp only [Except.bind]
  rfl

/-- On a 2-d frame with both extents at least 1024, frame_filter succeeds,
and its result is a 1024x1024 complex image. -/
theorem frame_filter_2d_ok (dat : List Nat → ℝ) (d1 d2 : ℝ) (n : ℕ) (a b : ℕ)
    (ha : 1024 ≤ a) (hb : 1024 ≤ b) :
    ∃ out, frame_filter ⟨[a, b], dat⟩ d1 d2 n = .ok out ∧ out.shape = [1024, 1024] := by
  rw [frame_filter_2d_eq dat d1 d2 n a b ha hb]
  exact ⟨_, rfl, rfl⟩

/-- On a 3-d frame with a leading unit axis and both remaining extents at
least 1024, frame_filter takes the squeeze branch and succeeds with a
1024x1024 complex image. -/
theorem frame_filter_3d_ok (dat : List Nat → ℝ) (d1 d2 : ℝ) (n : ℕ) (h w : ℕ)
    (hh : 1024 ≤ h) (hw : 1024 ≤ w) :
    ∃ out, frame_filter ⟨[1, h, w], dat⟩ d1 d2 n = .ok out ∧ out.shape = [1024, 1024] := by
  unfold frame_filter
  simp only [NDArray.ndim, List.length_cons, List.length_nil, List.headD_cons,
    slice_first0_1024]
  norm_num
  rw [min_eq_left hh, min_eq_left hw]
  exact ⟨_, rfl, rfl⟩

/-- On a 3-d frame with a non-unit leading axis (such as an RGB frame laid
out (height, width, channels)), the crop keeps the third axis and the
multiplication by the 1024x1024 mask fails to broadcast. -/
theorem frame_filter_rgb_err (dat : List Nat → ℝ) (d1 d2 : ℝ) (n : ℕ) (h w : ℕ)
    (hh : 1024 ≤ h) (hw : 1024 ≤ w) :
    frame_filter ⟨[h, w, 3], dat⟩ d1 d2 n =
      .error (.broadcastError [1024, 1024, 3] [1024, 1024]) := by
  have h1 : (h == 1) = false := by
    simp only [beq_eq_false_iff_ne, ne_eq]
    omega
  unfold frame_filter
  simp only [NDArray.ndim, List.length_cons, List.length_nil, List.headD_cons, h1,
    Bool.and_false, Bool.false_eq_true, if_false, slice_1024]
  rw [min_eq_left hh, min_eq_left hw]
  rfl

/-- Counting matches in the row-major product enumeration splits into a sum
over the leading coordinate. -/
theorem countP_prod_cons (p : List Nat → Bool) (hs : List Nat) (tails : List (List Nat)) :
    (prod_cons hs tails).countP p =
      (hs.map (fun h => tails.countP (fun t => p (h :: t)))).sum := by
  induction hs with
  | nil => rfl
  | cons h rest ih =>
    simp only [prod_cons, List.countP_append, List.countP_map, List.map_cons, List.sum_cons, ih]
    rfl

/-- Summing a function over `List.range` agrees with the Finset sum. -/
theorem sum_map_range (f : ℕ → ℕ) (n : ℕ) :
    ((List.range n).map f).sum = ∑ i ∈ Finset.range n, f i := by
  induction n with
  | zero => rfl
  | succ m ih =>
    rw [List.range_succ, List.map_append, List.sum_append, Finset.sum_range_succ, ih]
    simp

/-- Counting matches over all indices of a rank-2 shape is a double sum. -/
theorem countP_all_indices_2 (p : List Nat → Bool) (a b : ℕ) :
    (all_indices [a, b]).countP p =
      ∑ i ∈ Finset.range a, ∑ j ∈ Finset.range b, if p [i, j] then 1 else 0 := by
  show (prod_cons (List.range a) (all_indices [b])).countP p = _
  rw [countP_prod_cons, sum_map_range]
  apply Finset.sum_congr rfl
  intro i _
  show (prod_cons (List.range b) [[]]).countP _ = _
  rw [countP_prod_cons, sum_map_range]
  apply Finset.sum_congr rfl
  intro j _
  simp [List.countP_cons, List.countP_nil]

open Classical in
/-- For a 1024x1024 image, the threshold count of `calc_floc_proxy` is the
number of pixels (i, j) of the image whose absolute value exceeds 4000. -/
theorem floc_count_eq_card (I : NDArray ℂ) (hI : I.shape = [1024, 1024]) :
    floc_count I = (Finset.univ.filter (fun q : Fin 1024 × Fin 1024 =>
      4000 < Complex.abs (I.data [q.1.val, q.2.val]))).card := by
  rw [floc_count, hI, ← List.countP_eq_length_filter, countP_all_indices_2,
    Finset.card_filter, ← Finset.univ_product_univ, Finset.sum_product]
  rw [← Fin.sum_univ_eq_sum_range (fun i => ∑ j ∈ Finset.range 1024,
    if decide (4000 < Complex.abs (I.data [i, j])) = true then 1 else 0) 1024]
  refine Finset.sum_congr rfl fun x _ => ?_
  rw [← Fin.sum_univ_eq_sum_range (fun j =>
    if decide (4000 < Complex.abs (I.data [x.val, j])) = true then 1 else 0) 1024]
  refine Finset.sum_congr rfl fun y _ => ?_
  simp

open Classical in
/-- C1 (amended): for every 2-d input frame with both extents at least 1024
and positive parameters d1, d2, n, calc_floc_proxy returns a length-1 array
whose single entry is the number of pixels of the 1024x1024
frequency-domain-filtered subimage whose absolute value strictly exceeds
the threshold 4000. -/
theorem calc_floc_proxy_counts_threshold_pixels
    (frame : NDArray ℝ) (d1 d2 : ℝ) (n : ℕ) (a b : ℕ)
    (hs : frame.shape = [a, b]) (ha : 1024 ≤ a) (hb : 1024 ≤ b)
    (hd1 : 0 < d1) (hd2 : 0 < d2) (hn : 0 < n) :
    ∃ I_filt, frame_filter frame d1 d2 n = .ok I_filt ∧ I_filt.shape = [1024, 1024] ∧
      calc_floc_proxy frame d1 d2 n = .ok ⟨[1], fun _ =>
        ((Finset.univ.filter (fun q : Fin 1024 × Fin 1024 =>
          4000 < Complex.abs (I_filt.data [q.1.val, q.2.val]))).card : ℤ)⟩ := by
  obtain ⟨sh, dat⟩ := frame
  have hs2 : sh = [a, b] := hs
  subst hs2
  obtain ⟨out, hok, hshape⟩ := frame_filter_2d_ok dat d1 d2 n a b ha hb
  refine ⟨out, hok, hshape, ?_⟩
  show Except.bind (frame_filter ⟨[a, b], dat⟩ d1 d2 n) _ = _
  rw [hok]
  show Except.ok (⟨[1], fun _ => (floc_count out : ℤ)⟩ : NDArray ℤ) = _
  rw [floc_count_eq_card out hshape]

open Classical in
/-- Witness for C1 at the gray 1080x1920 frame layout of the companion
notebook with the notebook parameters d1 = 20, d2 = 400, n = 4. -/
theorem calc_floc_proxy_counts_threshold_pixels_witness :
    ∃ I_filt, frame_filter ⟨[1080, 1920], fun _ => 0⟩ 20 400 4 = .ok I_filt ∧
      I_filt.shape = [1024, 1024] ∧
      calc_floc_proxy ⟨[1080, 1920], fun _ => 0⟩ 20 400 4 = .ok ⟨[1], fun _ =>
        ((Finset.univ.filter (fun q : Fin 1024 × Fin 1024 =>
          4000 < Complex.abs (I_filt.data [q.1.val, q.2.val]))).card : ℤ)⟩ :=
  calc_floc_proxy_counts_threshold_pixels ⟨[1080, 1920], fun _ => 0⟩ 20 400 4 1080 1920
    rfl (by norm_num) (by norm_num) (by norm_num) (by norm_num) (by norm_num)

/-- Counterexample to C1 as stated: on an RGB frame of shape
(1080, 1920, 3) -- the very shape the show_image pipeline declares --
calc_floc_proxy does not return a length-1 count array; the multiplication
by the 1024x1024 mask fails to broadcast and the error propagates out. -/
theorem calc_floc_proxy_errors_on_rgb_frame :
    calc_floc_proxy ⟨[1080, 1920, 3], fun _ => 0⟩ 20 400 4 =
      .error (.broadcastError [1024, 1024, 3] [1024, 1024]) := rfl

/-- C2: butterworth(d1, d2, n) is a 1024x1024 mask whose entry at (i, j)
equals (1 - 1/(1 + (d/d1)^(2n))) * (1/(1 + (d/d2)^(2n))) where d is the
radial distance of the pixel from the grid center computed on the
half-sample-offset grid x = -511.5 .. 511.5. -/
theorem butterworth_entry_formula (d1 d2 : ℝ) (n : ℕ) (i j : ℕ)
    (hd1 : 0 < d1) (hd2 : 0 < d2) (hn : 0 < n) (hi : i < 1024) (hj : j < 1024) :
    (butterworth d1 d2 n).shape = [1024, 1024] ∧
    (butterworth d1 d2 n).data [i, j] =
      (1 - 1 / (1 + (spec_dist i j / d1) ^ (2 * n))) *
        (1 / (1 + (spec_dist i j / d2) ^ (2 * n))) := by
  refine ⟨rfl, ?_⟩
  have harg : (arange_x j) ^ 2 + (arange_x i) ^ 2 =
      ((i : ℝ) - 511.5) ^ 2 + ((j : ℝ) - 511.5) ^ 2 := by
    unfold arange_x; ring_nf
  simp only [butterworth, spec_dist, List.getD_cons_zero, List.getD_cons_succ]
  rw [harg]

/-- Witness for C2 at the notebook parameters and pixel (0, 0). -/
theorem butterworth_entry_formula_witness :
    (butterworth 20 400 4).shape = [1024, 1024] ∧
    (butterworth 20 400 4).data [0, 0] =
      (1 - 1 / (1 + (spec_dist 0 0 / 20) ^ (2 * 4))) *
        (1 / (1 + (spec_dist 0 0 / 400) ^ (2 * 4))) :=
  butterworth_entry_formula 20 400 4 0 0 (by norm_num) (by norm_num) (by norm_num)
    (by norm_num) (by norm_num)

/-- C3 (amended): for every 2-d frame with both extents at least 1024,
frame_filter is exactly the composition crop to the 1024x1024 subimage,
2-d FFT, fftshift, elementwise multiply by butterworth(d1, d2, n),
ifftshift, inverse 2-d FFT, and it succeeds with a 1024x1024 image. -/
theorem frame_filter_frequency_domain_steps
    (frame : NDArray ℝ) (d1 d2 : ℝ) (n : ℕ) (a b : ℕ)
    (hs : frame.shape = [a, b]) (ha : 1024 ≤ a) (hb : 1024 ≤ b) :
    frame_filter frame d1 d2 n =
      Except.bind (np_fft2 ((crop_1024 frame).map Complex.ofReal)) (fun I_fft =>
        Except.bind (np_mul (np_fftshift I_fft) ((butterworth d1 d2 n).map Complex.ofReal))
          (fun I_fft_shift_filt => np_ifft2 (np_ifftshift I_fft_shift_filt))) ∧
    ∃ I_filt, frame_filter frame d1 d2 n = .ok I_filt ∧ I_filt.shape = [1024, 1024] := by
  obtain ⟨sh, dat⟩ := frame
  have hs2 : sh = [a, b] := hs
  subst hs2
  exact ⟨frame_filter_2d_eq dat d1 d2 n a b ha hb, frame_filter_2d_ok dat d1 d2 n a b ha hb⟩

/-- Witness for C3 at a gray 1080x1920 frame and the notebook parameters. -/
theorem frame_filter_frequency_domain_steps_witness :
    frame_filter ⟨[1080, 1920], fun _ => 0⟩ 20 400 4 =
      Except.bind (np_fft2 ((crop_1024 ⟨[1080, 1920], fun _ => 0⟩).map Complex.ofReal))
        (fun I_fft =>
          Except.bind (np_mul (np_fftshift I_fft) ((butterworth 20 400 4).map Complex.ofReal))
            (fun I_fft_shift_filt => np_ifft2 (np_ifftshift I_fft_shift_filt))) ∧
    ∃ I_filt, frame_filter ⟨[1080, 1920], fun _ => 0⟩ 20 400 4 = .ok I_filt ∧
      I_filt.shape = [1024, 1024] :=
  frame_filter_frequency_domain_steps ⟨[1080, 1920], fun _ => 0⟩ 20 400 4 1080 1920
    rfl (by norm_num) (by norm_num)

/-- Counterexample to C3 as stated: not every frame is cropped to the
1024x1024 subimage and returned through the inverse FFT; a 500x500 frame
is cropped to 500x500 and the mask multiplication then raises a broadcast
error instead of returning. -/
theorem frame_filter_errors_on_small_frame :
    frame_filter ⟨[500, 500], fun _ => 0⟩ 20 400 4 =
      .error (.broadcastError [500, 500] [1024, 1024]) := rfl

/-- Helper: the inner timestamp loop produces, at position k, the looked-up
base timestamp plus the cumulative sum of the first k+1 per-frame offsets
frame_number / 29.97. -/
theorem ts_loop_eq (fns : List Nat) : ∀ t : ℚ, ts_loop t fns =
    (List.range fns.length).map (fun k =>
      t + (((fns.take (k + 1)).sum : ℕ) : ℚ) / (2997 / 100)) := by
  induction fns with
  | nil => intro t; rfl
  | cons f rest ih =>
    intro t
    simp only [ts_loop, List.length_cons, List.range_succ_eq_map, List.map_cons, List.map_map]
    refine List.cons_eq_cons.mpr ⟨by simp, ?_⟩
    rw [ih]
    apply List.map_congr_left
    intro k hk
    simp only [Function.comp_apply, List.take_succ_cons, List.sum_cons]
    push_cast
    ring

/-- Helper: when some table row matches the url, the iloc[0] lookup
succeeds with the timestamp of the first matching row. -/
theorem lookup_timestamp_ok (db : List CamhdRow) (url : String)
    (h : db.filter (fun r => r.blob_url == url) ≠ []) :
    lookup_timestamp db url = .ok (table_timestamp db url) := by
  unfold lookup_timestamp table_timestamp
  cases hh : db.filter (fun r => r.blob_url == url) with
  | nil => exact absurd hh h
  | cons r t => rfl

/-- Helper: membership in an insertion step of the sort. -/
theorem mem_insert_sorted (a x : String) (l : List String) :
    x ∈ insert_sorted a l ↔ x = a ∨ x ∈ l := by
  induction l with
  | nil => simp [insert_sorted]
  | cons b t ih =>
    by_cases h : a ≤ b
    · simp [insert_sorted, h]
    · simp [insert_sorted, h, ih]
      tauto

/-- Helper: sorting preserves membership. -/
theorem mem_py_sort (x : String) (l : List String) : x ∈ py_sort l ↔ x ∈ l := by
  induction l with
  | nil => simp [py_sort]
  | cons a t ih => simp [py_sort, mem_insert_sorted, ih]

/-- Helper: membership in blob_urls is exactly having a qualifying row. -/
theorem mem_blob_urls_aux (db : List CamhdRow) (b : String) :
    b ∈ blob_urls db ↔ ∃ r ∈ db, r.blob_url = b ∧
      r.deployment = 2 ∧ 5000 < r.frame_count ∧ r.frame_count < 30000 := by
  simp [blob_urls, mem_py_sort, List.mem_map, List.mem_filter]
  constructor
  · rintro ⟨r, ⟨hr, ⟨h2, h5⟩, h30⟩, hb⟩
    exact ⟨r, hr, hb, h2, h5, h30⟩
  · rintro ⟨r, hr, hb, h2, h5, h30⟩
    exact ⟨r, ⟨hr, ⟨h2, h5⟩, h30⟩, hb⟩

/-- Helper: every selected url matches at least one table row. -/
theorem blob_urls_filter_ne (db : List CamhdRow) (url : String) (h : url ∈ blob_urls db) :
    db.filter (fun r => r.blob_url == url) ≠ [] := by
  rw [mem_blob_urls_aux] at h
  obtain ⟨r, hr, hb, h2, h5, h30⟩ := h
  have hm : r ∈ db.filter (fun r => r.blob_url == url) := by
    rw [List.mem_filter]
    exact ⟨hr, by simp [hb]⟩
  exact List.ne_nil_of_mem hm

/-- Helper: the outer timestamp loop succeeds on any url list whose every
url matches a table row, concatenating the per-url inner loops. -/
theorem frame_timestamp_go_ok (db : List CamhdRow) (fns : List Nat) (ulist : List String)
    (h : ∀ u ∈ ulist, db.filter (fun r => r.blob_url == u) ≠ []) :
    frame_timestamp_go db fns ulist =
      .ok (ulist.flatMap (fun url => ts_loop (table_timestamp db url) fns)) := by
  induction ulist with
  | nil => rfl
  | cons u rest ih =>
    have hu := h u (by simp)
    rw [List.flatMap_cons]
    show Except.bind (lookup_timestamp db u) _ = _
    rw [lookup_timestamp_ok db u hu]
    show Except.bind (frame_timestamp_go db fns rest) _ = _
    rw [ih (fun v hv => h v (by simp [hv]))]
    rfl

/-- C4 (amended): the timestamp value used for the k-th processed frame of
a file is not the raw metadata-table timestamp of that file but the table
timestamp plus the cumulative sum of the first k+1 per-frame offsets
frame_number / 29.97 seconds, for every file in url order. -/
theorem frame_timestamp_cumulative_offsets (db : List CamhdRow) (fns : List Nat) :
    frame_timestamp db fns = .ok ((blob_urls db).flatMap (fun url =>
      (List.range fns.length).map (fun k =>
        table_timestamp db url + (((fns.take (k + 1)).sum : ℕ) : ℚ) / (2997 / 100)))) := by
  rw [frame_timestamp, frame_timestamp_go_ok db fns _ (fun u hu => blob_urls_filter_ne db u hu)]
  simp only [ts_loop_eq]

/-- Counterexample to C4 as stated: for a one-row table with timestamp 0
and the show_image frame number 7200, the value consumed for the plotted
frame is 0 + 7200 / 29.97, which differs from the table timestamp 0: the
timestamp is transformed by arithmetic before use. -/
theorem frame_timestamp_not_table_value :
    frame_timestamp [⟨"u", 2, 7000, 0⟩] [7200] =
      .ok [(0 : ℚ) + ((7200 : ℕ) : ℚ) / (2997 / 100)] ∧
    table_timestamp [⟨"u", 2, 7000, 0⟩] "u" = 0 ∧
    (0 : ℚ) + ((7200 : ℕ) : ℚ) / (2997 / 100) ≠ 0 :=
  ⟨rfl, rfl, by norm_num⟩

/-- C5: a url is in blob_urls exactly when some metadata row carries it
with deployment 2 and frame_count strictly between 5000 and 30000. -/
theorem mem_blob_urls_iff (db : List CamhdRow) (b : String) :
    b ∈ blob_urls db ↔ ∃ r ∈ db, r.blob_url = b ∧
      r.deployment = 2 ∧ 5000 < r.frame_count ∧ r.frame_count < 30000 :=
  mem_blob_urls_aux db b

/-- C6: the numeric filter functions are deterministic: equal inputs give
equal outputs for butterworth, frame_filter and calc_floc_proxy (in this
embedding each is a closed function of its arguments alone, mirroring the
source bodies, which read and write no state outside their parameters and
locals). -/
theorem numeric_filters_deterministic (d1 d2 : ℝ) (n : ℕ) (f : NDArray ℝ)
    (d1a d2a : ℝ) (na : ℕ) (fa : NDArray ℝ)
    (h1 : d1 = d1a) (h2 : d2 = d2a) (h3 : n = na) (h4 : f = fa) :
    butterworth d1 d2 n = butterworth d1a d2a na ∧
    frame_filter f d1 d2 n = frame_filter fa d1a d2a na ∧
    calc_floc_proxy f d1 d2 n = calc_floc_proxy fa d1a d2a na := by
  subst h1; subst h2; subst h3; subst h4
  exact ⟨rfl, rfl, rfl⟩

/-- Witness for C6 at the notebook parameters and a gray frame. -/
theorem numeric_filters_deterministic_witness :
    butterworth 20 400 4 = butterworth 20 400 4 ∧
    frame_filter ⟨[1080, 1920], fun _ => 0⟩ 20 400 4 =
      frame_filter ⟨[1080, 1920], fun _ => 0⟩ 20 400 4 ∧
    calc_floc_proxy ⟨[1080, 1920], fun _ => 0⟩ 20 400 4 =
      calc_floc_proxy ⟨[1080, 1920], fun _ => 0⟩ 20 400 4 :=
  numeric_filters_deterministic 20 400 4 ⟨[1080, 1920], fun _ => 0⟩ 20 400 4
    ⟨[1080, 1920], fun _ => 0⟩ rfl rfl rfl rfl

/-- C7: the delayed frame list holds exactly one deferred frame per
(url, frame number) pair in url-major order, each frame task referring to
the single deferred moov-atom fetch of its url, with declared shape
(1080, 1920, 3) and dtype uint8; the stacked array has
|blob_urls| * |frame_numbers| chunks. -/
theorem delayed_frame_list_structure (urls : List String) (fns : List Nat) :
    (delayed_frame_array urls fns).chunks.length = urls.length * fns.length ∧
    ∀ i j (hi : i < urls.length) (hj : j < fns.length),
      (delayed_frame_array urls fns).chunks[i * fns.length + j]? =
        some { task := Delayed.frame (urls.get ⟨i, hi⟩) (fns.get ⟨j, hj⟩)
                 "rgb24" (Delayed.moov_atom (urls.get ⟨i, hi⟩)),
               shape := [1080, 1920, 3], dtype := "uint8" } := by
  constructor
  · show (delayed_frame_list urls fns).length = _
    induction urls with
    | nil => simp [delayed_frame_list]
    | cons u rest ih => simp [delayed_frame_list, ih]; ring
  · intro i j hi hj
    show (delayed_frame_list urls fns)[i * fns.length + j]? = _
    induction urls generalizing i with
    | nil => simp at hi
    | cons u rest ih =>
      cases i with
      | zero =>
        simp only [delayed_frame_list, List.getElem?_append, zero_mul, zero_add]
        rw [if_pos (by simp [hj])]
        simp [List.getElem?_map, List.getElem?_eq_getElem hj]
      | succ ia =>
        simp only [delayed_frame_list]
        rw [List.getElem?_append_right (by simp [Nat.succ_mul]; omega)]
        simp only [List.length_map]
        rw [show (ia + 1) * fns.length + j - fns.length = ia * fns.length + j by
          rw [Nat.succ_mul]; omega]
        exact ih ia (by simp only [List.length_cons] at hi; omega)

/-- Witness for C7 at two urls and two frame numbers, reading the chunk of
the second url and second frame number. -/
theorem delayed_frame_list_structure_witness :
    (delayed_frame_array ["a", "b"] [5, 9]).chunks.length = 2 * 2 ∧
    (delayed_frame_array ["a", "b"] [5, 9]).chunks[1 * 2 + 1]? =
      some { task := Delayed.frame "b" 9 "rgb24" (Delayed.moov_atom "b"),
             shape := [1080, 1920, 3], dtype := "uint8" } := by
  refine ⟨(delayed_frame_list_structure ["a", "b"] [5, 9]).1, ?_⟩
  have h := (delayed_frame_list_structure ["a", "b"] [5, 9]).2 1 1 (by decide) (by decide)
  simpa using h

/-- C8: the notebook wraps no library call in a handler: a failing moov
fetch, a failing frame fetch, and a failing numpy step inside the filter
all surface their error unchanged from the chunk computation. -/
theorem errors_propagate_unchanged (get_moov_atom : String → Except PyError MoovAtom)
    (get_frame : String → Nat → String → MoovAtom → Except PyError (NDArray ℝ))
    (blob_url : String) (frame_number : ℕ) (d1 d2 : ℝ) (n : ℕ) (e : PyError) :
    (get_moov_atom blob_url = .error e →
      compute_chunk get_moov_atom get_frame blob_url frame_number d1 d2 n = .error e) ∧
    (∀ m, get_moov_atom blob_url = .ok m →
      get_frame blob_url frame_number "rgb24" m = .error e →
      compute_chunk get_moov_atom get_frame blob_url frame_number d1 d2 n = .error e) ∧
    (∀ frame : NDArray ℝ, frame_filter frame d1 d2 n = .error e →
      calc_floc_proxy frame d1 d2 n = .error e) := by
  refine ⟨fun h => ?_, fun m h1 h2 => ?_, fun frame h => ?_⟩
  · show Except.bind (get_moov_atom blob_url) _ = _
    rw [h]
    rfl
  · show Except.bind (get_moov_atom blob_url) _ = _
    rw [h1]
    show Except.bind (get_frame blob_url frame_number "rgb24" m) _ = _
    rw [h2]
    rfl
  · show Except.bind (frame_filter frame d1 d2 n) _ = _
    rw [h]
    rfl

/-- Witness for C8: a failing moov-atom fetch surfaces its library error
unchanged. -/
theorem errors_propagate_unchanged_witness :
    compute_chunk (fun _ => .error (.libraryError "connection reset"))
      (fun _ _ _ _ => .error (.libraryError "decode failure")) "u" 7200 20 400 4 =
      .error (.libraryError "connection reset") :=
  (errors_propagate_unchanged (fun _ => .error (.libraryError "connection reset"))
    (fun _ _ _ _ => .error (.libraryError "decode failure")) "u" 7200 20 400 4
    (.libraryError "connection reset")).1 rfl

/-- C9 (amended): for a 3-d frame with leading unit axis frame_filter
squeezes and succeeds with a 2-d 1024x1024 result, but for an RGB frame of
shape (h, w, 3) it crops only the first two axes, producing a
(1024, 1024, 3) intermediate whose multiplication with the 1024x1024 mask
fails to broadcast, so frame_filter raises a broadcast error and
calc_floc_proxy propagates it instead of counting over three channels. -/
theorem frame_filter_frame_layout (d1 d2 : ℝ) (n : ℕ) (h w : ℕ)
    (fr3 rgb : NDArray ℝ)
    (hsq : fr3.shape = [1, h, w]) (hrgb : rgb.shape = [h, w, 3])
    (hh : 1024 ≤ h) (hw : 1024 ≤ w) :
    (∃ I_filt, frame_filter fr3 d1 d2 n = .ok I_filt ∧ I_filt.shape = [1024, 1024]) ∧
    frame_filter rgb d1 d2 n = .error (.broadcastError [1024, 1024, 3] [1024, 1024]) ∧
    calc_floc_proxy rgb d1 d2 n =
      .error (.broadcastError [1024, 1024, 3] [1024, 1024]) := by
  obtain ⟨sh3, dat3⟩ := fr3
  have hs3 : sh3 = [1, h, w] := hsq
  subst hs3
  obtain ⟨shr, datr⟩ := rgb
  have hsr : shr = [h, w, 3] := hrgb
  subst hsr
  have herr := frame_filter_rgb_err datr d1 d2 n h w hh hw
  refine ⟨frame_filter_3d_ok dat3 d1 d2 n h w hh hw, herr, ?_⟩
  show Except.bind (frame_filter ⟨[h, w, 3], datr⟩ d1 d2 n) _ = _
  rw [herr]
  rfl

/-- Witness for C9 at the notebook frame layouts (1, 1080, 1920) and
(1080, 1920, 3). -/
theorem frame_filter_frame_layout_witness :
    (∃ I_filt, frame_filter ⟨[1, 1080, 1920], fun _ => 0⟩ 20 400 4 = .ok I_filt ∧
      I_filt.shape = [1024, 1024]) ∧
    frame_filter ⟨[1080, 1920, 3], fun _ => 0⟩ 20 400 4 =
      .error (.broadcastError [1024, 1024, 3] [1024, 1024]) ∧
    calc_floc_proxy ⟨[1080, 1920, 3], fun _ => 0⟩ 20 400 4 =
      .error (.broadcastError [1024, 1024, 3] [1024, 1024]) :=
  frame_filter_frame_layout 20 400 4 1080 1920 ⟨[1, 1080, 1920], fun _ => 0⟩
    ⟨[1080, 1920, 3], fun _ => 0⟩ rfl rfl (by norm_num) (by norm_num)

/-- Counterexample to C9 as stated: on the RGB frame layout frame_filter
does not return any array at all (in particular not a 3-d
(1024, 1024, 3) one): the broadcast of the mask fails and an error is
raised. -/
theorem frame_filter_rgb_broadcast_error :
    frame_filter ⟨[1080, 1920, 3], fun _ => 0⟩ 20 400 4 =
      .error (.broadcastError [1024, 1024, 3] [1024, 1024]) ∧
    ¬ ∃ out, frame_filter ⟨[1080, 1920, 3], fun _ => 0⟩ 20 400 4 = .ok out := by
  refine ⟨rfl, ?_⟩
  rintro ⟨out, hout⟩
  rw [show frame_filter ⟨[1080, 1920, 3], fun _ => 0⟩ 20 400 4 =
    .error (.broadcastError [1024, 1024, 3] [1024, 1024]) from rfl] at hout
  exact Except.noConfusion hout

/-- C10: the Butterworth mask is symmetric under 180-degree rotation of
the grid: the entry at (i, j) equals the entry at (1023 - i, 1023 - j),
because the mask depends only on the radial distance and the coordinate
grid is symmetric about the center. -/
theorem butterworth_rotation_symmetric (d1 d2 : ℝ) (n : ℕ) (i j : ℕ)
    (hd1 : 0 < d1) (hd2 : 0 < d2) (hn : 0 < n) (hi : i ≤ 1023) (hj : j ≤ 1023) :
    (butterworth d1 d2 n).data [i, j] =
      (butterworth d1 d2 n).data [1023 - i, 1023 - j] := by
  have harg : (arange_x (1023 - j)) ^ 2 + (arange_x (1023 - i)) ^ 2 =
      (arange_x j) ^ 2 + (arange_x i) ^ 2 := by
    unfold arange_x
    rw [Nat.cast_sub hj, Nat.cast_sub hi]
    push_cast
    ring
  simp only [butterworth, List.getD_cons_zero, List.getD_cons_succ]
  rw [harg]

/-- Witness for C10 at the notebook parameters and pixel (0, 0). -/
theorem butterworth_rotation_symmetric_witness :
    (butterworth 20 400 4).data [0, 0] = (butterworth 20 400 4).data [1023, 1023] :=
  butterworth_rotation_symmetric 20 400 4 0 0 (by norm_num) (by norm_num) (by norm_num)
    (by norm_num) (by norm_num)
